import Mathlib

/-!
# Verification of the Subway-Tracker transit-link interpretation pipeline

Shallow embedding of `src/services/transit_service.py` (the file all claims
cite).  Python strings are modelled as Lean `String`/`List Char` restricted to
ASCII semantics: Python's `\w` is `[A-Za-z0-9_]`, `\s` is ASCII whitespace,
`str.lower` is ASCII lowercasing.  Python's `re.sub` for the specific patterns
appearing in the source is embedded by dedicated scanners that reproduce the
module `re` behaviour on those patterns (leftmost match, alternation tried in
written order, greedy repetition, `\b` word boundaries); the embedding of each
pattern is justified next to its definition.
-/

/-- Python `\w` (ASCII): letters, digits, underscore. -/
def isWordChar (c : Char) : Bool := c.isAlphanum || c = '_'

/-- Python `\s` (ASCII): space, tab, newline, carriage return, vertical tab, form feed. -/
def isSpaceChar (c : Char) : Bool :=
  c = ' ' || c = '\t' || c = '\n' || c = '\r' || c = '\x0b' || c = '\x0c'

/-- Whether the character sits at the start of `s` with a following word
boundary once `lit` has been consumed: `lit` is a literal alternative of one of
the `\b(...)\b` patterns in `clean_station_name`.  All the literals start and
end with a word character, so the leading `\b` holds iff the previous character
is absent or a non-word character (tracked by the caller), and the trailing
`\b` holds iff the character right after the match is absent or non-word. -/
def litMatchAt (lit : List Char) (s : List Char) : Bool :=
  lit.isPrefixOf s &&
    (match s.drop lit.length with
     | [] => true
     | c :: _ => !isWordChar c)

/-- Try the alternatives of a `\b(a|b|...)\b` pattern in written order (Python
alternation is first-match, not longest-match); returns the rest of the input
after the matched literal. -/
def tryLits (lits : List (List Char)) (s : List Char) : Option (List Char) :=
  match lits with
  | [] => none
  | l :: ls => if litMatchAt l s then some (s.drop l.length) else tryLits ls s

/-- One left-to-right pass of `re.sub(r'\b(lit1|lit2|...)\b', '', s)`.
`prevW` records whether the previously consumed character of the original
string was a word character (false at the start of the string).  After a match
the previous character is the literal's last character, which is always a word
character for the literals used by the source.  `fuel` only guards structural
termination; every step consumes at least one character, so `s.length` fuel is
always enough, and exhausted fuel returns the rest unchanged. -/
def wordSubGo (lits : List (List Char)) : Nat → Bool → List Char → List Char
  | 0, _, s => s
  | _ + 1, _, [] => []
  | fuel + 1, prevW, c :: cs =>
    if prevW then c :: wordSubGo lits fuel (isWordChar c) cs
    else
      match tryLits lits (c :: cs) with
      | some rest => wordSubGo lits fuel true rest
      | none => c :: wordSubGo lits fuel (isWordChar c) cs

def wordSub (lits : List (List Char)) (s : List Char) : List Char :=
  wordSubGo lits (s.length + 1) false s

/-- Literals of `re.sub(r'\b(street|st|avenue|ave|road|rd|boulevard|blvd|plaza|square|sq)\b', '', ...)`. -/
def lits1 : List (List Char) :=
  ["street".data, "st".data, "avenue".data, "ave".data, "road".data, "rd".data,
   "boulevard".data, "blvd".data, "plaza".data, "square".data, "sq".data]

/-- Literals of `re.sub(r'\b(station|subway|stop)\b', '', ...)`. -/
def lits2 : List (List Char) := ["station".data, "subway".data, "stop".data]

/-- Literals of `re.sub(r'\b(new york|ny|brooklyn|manhattan|queens|bronx)\b', '', ...)`. -/
def lits3 : List (List Char) :=
  ["new york".data, "ny".data, "brooklyn".data, "manhattan".data,
   "queens".data, "bronx".data]

/-- Length of the longest prefix of `s` whose characters satisfy `p`. -/
def countLeading (p : Char → Bool) : List Char → Nat
  | [] => 0
  | c :: cs => if p c then countLeading p cs + 1 else 0

/-- Alternatives of the directional group of
`re.sub(r'\d+\s*(w|e|n|s|west|east|north|south)\s*\d+\w*', '', ...)`,
in written order. -/
def dirWords : List (List Char) :=
  ["w".data, "e".data, "n".data, "s".data, "west".data, "east".data,
   "north".data, "south".data]

/-- Try the directional alternatives in order at `s`, each followed by
`\s*\d+\w*`; returns the number of characters consumed from `s` for the first
alternative whose continuation succeeds (Python backtracks into the
alternation; the starred repetitions never need to give characters back here
because a digit can never satisfy the following letter alternative, a space
can never be a digit, and `\w*` is last). -/
def tryDirs : List (List Char) → List Char → Option Nat
  | [], _ => none
  | w :: ws, s =>
    if w.isPrefixOf s then
      let s3 := s.drop w.length
      let sp2 := countLeading isSpaceChar s3
      let s4 := s3.drop sp2
      let d2 := countLeading Char.isDigit s4
      if d2 = 0 then tryDirs ws s
      else
        let s5 := s4.drop d2
        some (w.length + sp2 + d2 + countLeading isWordChar s5)
    else tryDirs ws s

/-- Length of the match of `\d+\s*(w|e|n|s|west|east|north|south)\s*\d+\w*`
anchored at the start of `s`, if any.  The pattern has no `\b`, so no
boundary context is needed. -/
def addrMatchLen (s : List Char) : Option Nat :=
  let d1 := countLeading Char.isDigit s
  if d1 = 0 then none
  else
    let s1 := s.drop d1
    let sp1 := countLeading isSpaceChar s1
    (tryDirs dirWords (s1.drop sp1)).map (fun n => d1 + sp1 + n)

/-- Left-to-right pass of `re.sub(r'\d+\s*(w|e|n|s|west|east|north|south)\s*\d+\w*', '', s)`.
A match always consumes at least one character (`\d+`), so `s.length` fuel
suffices; exhausted fuel returns the rest unchanged. -/
def addrSubGo : Nat → List Char → List Char
  | 0, s => s
  | _ + 1, [] => []
  | fuel + 1, c :: cs =>
    match addrMatchLen (c :: cs) with
    | some n => addrSubGo fuel ((c :: cs).drop n)
    | none => c :: addrSubGo fuel cs

def addrSub (s : List Char) : List Char := addrSubGo (s.length + 1) s

/-- `re.sub(r'[^\w\s]', ' ', s)`: each character that is neither a word
character nor whitespace becomes a single space. -/
def punctSub (s : List Char) : List Char :=
  s.map (fun c => if !isWordChar c && !isSpaceChar c then ' ' else c)

/-- `re.sub(r'\s+', ' ', s)`: every maximal whitespace run becomes one space.
`inRun` records whether the previous character was whitespace. -/
def spaceSubGo (inRun : Bool) : List Char → List Char
  | [] => []
  | c :: cs =>
    if isSpaceChar c then
      if inRun then spaceSubGo true cs else ' ' :: spaceSubGo true cs
    else c :: spaceSubGo false cs

def spaceSub (s : List Char) : List Char := spaceSubGo false s

/-- Python `str.strip()` (ASCII whitespace). -/
def pyStrip (s : List Char) : List Char :=
  ((s.dropWhile isSpaceChar).reverse.dropWhile isSpaceChar).reverse

/-- Python `str.lower()` restricted to ASCII. -/
def lowerChar (c : Char) : Char := c.toLower

/-- `clean_station_name` (src/services/transit_service.py lines 40-63): the
station-name normalizer.  The six processing steps of the source in order:
lowercase, strip street terms, strip transit terms, strip location terms,
strip address patterns, replace non-alphanumerics by spaces, collapse
whitespace and trim. -/
def clean_station_name (name : String) : String :=
  let s0 := name.data.map lowerChar
  let s1 := wordSub lits1 s0
  let s2 := wordSub lits2 s1
  let s3 := wordSub lits3 s2
  let s4 := addrSub s3
  let s5 := punctSub s4
  String.mk (pyStrip (spaceSub s5))

/-- Python `str.split()` with no arguments: split on whitespace runs,
dropping empty pieces.  `cur` accumulates the current word reversed. -/
def pySplitWsGo (cur : List Char) : List Char → List (List Char)
  | [] => if cur.isEmpty then [] else [cur.reverse]
  | c :: cs =>
    if isSpaceChar c then
      if cur.isEmpty then pySplitWsGo [] cs else cur.reverse :: pySplitWsGo [] cs
    else pySplitWsGo (c :: cur) cs

def pySplitWs (s : List Char) : List (List Char) := pySplitWsGo [] s

/-- The words of a string, as used for `set(x.split())` in the source. -/
def wordsOf (s : String) : List String := (pySplitWs s.data).map String.mk

/-- Distinct words, first occurrences kept: models the Python `set` built
from `split()` where only the cardinality and membership are consumed. -/
def distinctWordsOf (s : String) : List String := (wordsOf s).dedup

/-- Python `needle in hay` for strings: contiguous-substring test
(the empty needle is a substring of everything). -/
def pyContains (hay needle : List Char) : Bool :=
  hay.tails.any (fun t => needle.isPrefixOf t)

def pyContainsStr (hay needle : String) : Bool := pyContains hay.data needle.data

/-- `similar_station_names` (src/services/transit_service.py lines 462-479):
false when either raw name is empty (Python falsiness of `''`), else true when
the cleaned names are equal or share at least one word. -/
def similar_station_names (name1 name2 : String) : Bool :=
  if name1 = "" || name2 = "" then false
  else
    let norm1 := clean_station_name name1
    let norm2 := clean_station_name name2
    if norm1 = norm2 then true
    else (wordsOf norm1).any (fun w => (wordsOf norm2).contains w)

/-- The per-station body of the matching loop of `find_matching_stations`
(src/services/transit_service.py lines 73-97): exact cleaned match scores 100,
substring containment either way scores 80, otherwise word overlap scores
`int(overlap / total * 60)` kept only when at least 30.  The float expression
is modelled by exact natural floor division; for the word-set sizes of real
station names the truncated float and the exact floor coincide, and no claim
below depends on the tier-3 numeric value. -/
def stationMatch (cleanedExtracted : String) (station : String) : Option (String × Nat) :=
  let cleanedStation := clean_station_name station
  if cleanedExtracted = cleanedStation then some (station, 100)
  else if pyContainsStr cleanedStation cleanedExtracted
       || pyContainsStr cleanedExtracted cleanedStation then some (station, 80)
  else
    let ew := distinctWordsOf cleanedExtracted
    let sw := distinctWordsOf cleanedStation
    if !ew.isEmpty && !sw.isEmpty then
      let overlap := (ew.filter (fun w => sw.contains w)).length
      let total := min ew.length sw.length
      if overlap > 0 && total > 0 then
        let confidence := overlap * 60 / total
        if confidence ≥ 30 then some (station, confidence) else none
      else none
    else none

/-- Stable insertion for descending confidence: a new element goes before the
first strictly-smaller-or-equal... precisely, before the first element whose
confidence it reaches (`≥`), so that among equal confidences earlier list
elements stay first, matching Python's stable `list.sort(reverse=True)`. -/
def insertDesc (x : String × Nat) : List (String × Nat) → List (String × Nat)
  | [] => [x]
  | y :: ys => if x.2 ≥ y.2 then x :: y :: ys else y :: insertDesc x ys

/-- Stable sort by confidence, highest first: models
`matches.sort(key=lambda x: x[1], reverse=True)`. -/
def sortDesc : List (String × Nat) → List (String × Nat)
  | [] => []
  | x :: xs => insertDesc x (sortDesc xs)

/-- `find_matching_stations` (src/services/transit_service.py lines 65-103):
empty-name guard (Python falsiness: only the empty string), per-station
scoring, stable descending sort, top three. -/
def find_matching_stations (extracted_name : String) (all_stations : List String) :
    List (String × Nat) :=
  if extracted_name = "" then []
  else
    let cleaned := clean_station_name extracted_name
    (sortDesc (all_stations.filterMap (stationMatch cleaned))).take 3

/-- Python `str.replace(pat, rep)` for a non-empty `pat`: left-to-right,
non-overlapping, the replacement is not rescanned.  Fuel as in the scanners
above. -/
def replaceGo (pat rep : List Char) : Nat → List Char → List Char
  | 0, s => s
  | _ + 1, [] => []
  | fuel + 1, c :: cs =>
    if pat.isPrefixOf (c :: cs) then rep ++ replaceGo pat rep fuel ((c :: cs).drop pat.length)
    else c :: replaceGo pat rep fuel cs

def pyReplace (s pat rep : String) : String :=
  String.mk (replaceGo pat.data rep.data (s.data.length + 1) s.data)

/-- `normalize_stop_name` (src/services/transit_service.py lines 105-111):
`' '.join(stop_name.split())` then the two `replace` calls. -/
def normalize_stop_name (stop_name : String) : String :=
  let joined := String.intercalate " " (wordsOf stop_name)
  pyReplace (pyReplace joined " St " " St-") " Av " " Ave "

/-- `ParsedRide` (src/services/transit_service.py lines 21-26).  The model
has exactly the source's fields; dates are abstracted to a day number.
Note the source model carries no confidence field. -/
structure ParsedRide where
  line : String
  boarding_stop : String
  departing_stop : String
  ride_date : Nat
  transferred : Bool
deriving DecidableEq, Repr

/-- `detect_transfers_in_rides` (src/services/transit_service.py lines
450-460): for each adjacent pair, mark the earlier ride transferred when its
departing stop is similar to the next ride's boarding stop.  The source
mutates `rides[i].transferred` in place while only ever reading boarding
stops of later rides, so the sequential loop is the pairwise map below. -/
def detect_transfers_in_rides : List ParsedRide → List ParsedRide
  | [] => []
  | [r] => [r]
  | r1 :: r2 :: rest =>
    (if similar_station_names r1.departing_stop r2.boarding_stop then
       { r1 with transferred := true }
     else r1) :: detect_transfers_in_rides (r2 :: rest)

/-- The `line` object of a transit step: `short_name`/`name` keys may be
absent (`none`). -/
structure LineInfo where
  short_name : Option String
  name : Option String
deriving DecidableEq, Repr

/-- `transit_details` of a step, flattened to the fields the source reads:
the names of departure and arrival stops, and the line object. -/
structure TransitDetails where
  departure_stop : String
  arrival_stop : String
  line : LineInfo
deriving DecidableEq, Repr

/-- One step of a leg: the travel mode string and the optional
`transit_details` object (absent for walking steps). -/
structure Step where
  travel_mode : String
  transit_details : Option TransitDetails
deriving DecidableEq, Repr

structure Leg where
  steps : List Step
deriving DecidableEq, Repr

structure Route where
  legs : List Leg
deriving DecidableEq, Repr

/-- The decoded provider response body consumed by the source:
`status`, optional `error_message`, and the list of routes. -/
structure ApiResponse where
  status : String
  error_message : Option String
  routes : List Route
deriving DecidableEq, Repr

/-- The simplified ride dictionaries built by `get_transit_rides_from_api`. -/
structure Ride where
  board_stop : String
  depart_stop : String
  line : String
deriving DecidableEq, Repr

/-- `line_info.get("short_name", line_info.get("name", "Unknown"))`. -/
def rideOfDetails (td : TransitDetails) : Ride :=
  { board_stop := td.departure_stop
    depart_stop := td.arrival_stop
    line := td.line.short_name.getD (td.line.name.getD "Unknown") }

/-- The per-route extraction loop of `get_transit_rides_from_api`
(src/services/transit_service.py lines 242-264): walk legs in order, steps in
order, keep a ride for each step that carries `transit_details` (Python
truthiness of the object), nothing for the others. -/
def routeRides (route : Route) : List Ride :=
  route.legs.flatMap (fun leg =>
    leg.steps.filterMap (fun step => step.transit_details.map rideOfDetails))

/-- `get_transit_rides_from_api` (src/services/transit_service.py lines
202-266), from the decoded response body on: any non-"OK" status returns the
plain empty list (lines 230-232) — no exception is raised and no error value
is returned; otherwise only `routes[0]` is processed (lines 238-241). -/
def get_transit_rides_from_api (data : ApiResponse) : List Ride :=
  if data.status ≠ "OK" then []
  else
    match data.routes with
    | [] => []
    | route :: _ => routeRides route

/-- Step 4 of `extract_transit_info_with_new_api` (src/services/transit_service.py
lines 312-321): each ride dictionary becomes a `ParsedRide` with today's date
and `transferred = False`. -/
def ridesToParsed (rides : List Ride) (today : Nat) : List ParsedRide :=
  rides.map (fun r =>
    { line := r.line
      boarding_stop := r.board_stop
      departing_stop := r.depart_stop
      ride_date := today
      transferred := false })

/-- `process_api_routes` (src/services/transit_service.py lines 414-448): the
legacy extraction walks EVERY route of the list (`for route_idx, route in
enumerate(routes)`), keeps steps whose `travel_mode` is `'TRANSIT'`, reads
line and stop names with `''` defaults, and keeps the ride only when the line
name and both stop names are non-empty. -/
def process_api_routes (routes : List Route) (today : Nat) : List ParsedRide :=
  routes.flatMap (fun route =>
    route.legs.flatMap (fun leg =>
      leg.steps.filterMap (fun step =>
        if step.travel_mode = "TRANSIT" then
          let lineShort := match step.transit_details with
            | some td => td.line.short_name.getD ""
            | none => ""
          let lineFull := match step.transit_details with
            | some td => td.line.name.getD ""
            | none => ""
          let line_name := if lineShort ≠ "" then lineShort else lineFull
          let dep := match step.transit_details with
            | some td => td.departure_stop
            | none => ""
          let arr := match step.transit_details with
            | some td => td.arrival_stop
            | none => ""
          if line_name ≠ "" && dep ≠ "" && arr ≠ "" then
            some { line := line_name
                   boarding_stop := normalize_stop_name dep
                   departing_stop := normalize_stop_name arr
                   ride_date := today
                   transferred := false }
          else none
        else none)))

/-- `expand_shortened_url` (src/services/transit_service.py lines 116-134).
The HTTP redirect-following request is modelled by the oracle `net`: `some u`
means the request completed with final URL `u`, `none` means it raised
(timeout, DNS, connection error).  The source's `except` clause returns the
original URL on any failure. -/
def expand_shortened_url (url : String) (net : String → Option String) : String :=
  if pyContainsStr url "maps.app.goo.gl" || pyContainsStr url "goo.gl" then
    match net url with
    | some expanded => expanded
    | none => url
  else url

/-- Hex digit value, as accepted by `urllib.parse.unquote`. -/
def hexVal (c : Char) : Option Nat :=
  if '0' ≤ c ∧ c ≤ '9' then some (c.toNat - '0'.toNat)
  else if 'a' ≤ c ∧ c ≤ 'f' then some (c.toNat - 'a'.toNat + 10)
  else if 'A' ≤ c ∧ c ≤ 'F' then some (c.toNat - 'A'.toNat + 10)
  else none

/-- `urllib.parse.unquote` restricted to ASCII percent-escapes: `%XX` with two
hex digits becomes the character with that code, malformed escapes are kept
verbatim and scanning resumes right after the `%`.  Notably `+` is NOT
decoded to a space (that is `unquote_plus`, which the source never calls). -/
def unquoteGo : List Char → List Char
  | [] => []
  | '%' :: a :: b :: rest =>
    match hexVal a, hexVal b with
    | some va, some vb => Char.ofNat (16 * va + vb) :: unquoteGo rest
    | _, _ => '%' :: unquoteGo (a :: b :: rest)
  | c :: cs => c :: unquoteGo cs

def unquote (s : String) : String := String.mk (unquoteGo s.data)

/-- Characters allowed in a URL scheme by `urllib.parse`. -/
def schemeChar (c : Char) : Bool := c.isAlphanum || c = '+' || c = '-' || c = '.'

/-- The `path` component produced by `urllib.parse.urlparse`, following
CPython's `urlsplit`: strip `scheme:` when the text before the first colon is
a valid scheme starting with a letter, strip `//netloc` up to the next
`/`, `?` or `#`, then cut the fragment at the first `#` and the query at the
first `?`. -/
def urlPath (url : List Char) : List Char :=
  let afterScheme :=
    let pre := url.takeWhile (fun c => c ≠ ':')
    if pre.length < url.length ∧ pre ≠ [] ∧ pre.all schemeChar ∧
        (pre.headD ' ').isAlpha then
      url.drop (pre.length + 1)
    else url
  let afterNetloc :=
    if afterScheme.take 2 = ['/', '/'] then
      (afterScheme.drop 2).dropWhile (fun c => c ≠ '/' ∧ c ≠ '?' ∧ c ≠ '#')
    else afterScheme
  (afterNetloc.takeWhile (fun c => c ≠ '#')).takeWhile (fun c => c ≠ '?')

/-- Python `str.split(sep)` for a single-character separator: keeps empty
pieces, `''.split('/') == ['']`. -/
def pySplitOnGo (sep : Char) (cur : List Char) : List Char → List (List Char)
  | [] => [cur.reverse]
  | c :: cs =>
    if c = sep then cur.reverse :: pySplitOnGo sep [] cs
    else pySplitOnGo sep (c :: cur) cs

def pySplitOn (sep : Char) (s : List Char) : List (List Char) := pySplitOnGo sep [] s

/-- `extract_origin_destination` (src/services/transit_service.py lines
268-293): split the URL path on `/`, find the first part equal to `"dir"`,
unquote the next two parts.  A missing `"dir"` part (`ValueError` from
`parts.index`) or a missing following part (`IndexError`) makes the source
raise `ValueError`, modelled as `none`. -/
def extract_origin_destination (maps_url : String) : Option (String × String) :=
  let parts := (pySplitOn '/' (urlPath maps_url.data)).map String.mk
  match parts.findIdx? (fun p => p = "dir") with
  | none => none
  | some i =>
    match parts[i + 1]?, parts[i + 2]? with
    | some o, some d => some (unquote o, unquote d)
    | _, _ => none

/-- The provider-error value the specification requires the gateway to fail
with: provider status plus optional provider message. -/
structure ProviderError where
  status : String
  message : Option String
deriving DecidableEq, Repr

/-- Modelled from the spec: the DirectionsGateway contract of section 4.5 /
claim C1 — missing from the code, which has no `ProviderError` at all.  "Fails
with `ProviderError` carrying the provider's status code/message on any
non-success response"; on success the extraction proceeds as in the source.
Used only to exhibit the divergence between the specified and the implemented
behaviour. -/
def getTransitRidesSpec (data : ApiResponse) : Except ProviderError (List Ride) :=
  if data.status = "OK" then
    .ok (match data.routes with
         | [] => []
         | route :: _ => routeRides route)
  else .error { status := data.status, message := data.error_message }

/-- Modelled from the spec: the "similar" judgement of section 4.7 / claim C5,
exactly as the spec words it — "normalized forms are equal, OR normalized
forms share at least one common word after normalization" — with no guard on
the raw names.  Used only to exhibit where it differs from
`similar_station_names`. -/
def similarSpec (name1 name2 : String) : Bool :=
  let norm1 := clean_station_name name1
  let norm2 := clean_station_name name2
  norm1 = norm2 || (wordsOf norm1).any (fun w => (wordsOf norm2).contains w)

/-- Modelled from the spec: "empty if rawName is empty/blank" of section 4.3 /
claim C6 — a blank name consists only of whitespace. -/
def isBlank (s : String) : Bool := s.data.all isSpaceChar

/-- A `ParsedRide` with its `transferred` flag cleared: comparing
`map stripTransferred` before and after a pass states that the pass touched
nothing but `transferred`. -/
def stripTransferred (r : ParsedRide) : ParsedRide := { r with transferred := false }

/-- Whether some position of `s` carries a match of the `\b`-guarded literal
alternation: scans every position one character at a time, tracking the
word-character flag exactly like `wordSubGo`.  `wordSubGo` is the identity on
strings without such a match. -/
def hasWordOcc (lits : List (List Char)) : Bool → List Char → Bool
  | _, [] => false
  | prevW, c :: cs =>
    (!prevW && (tryLits lits (c :: cs)).isSome) || hasWordOcc lits (isWordChar c) cs

/-- No ASCII digit anywhere: makes the address pattern `\d+...` unmatchable. -/
def noDigits (s : String) : Bool := s.data.all (fun c => !c.isDigit)


/-- Whether a string has well-formed spacing when the previous character was
(`prevSp`) a whitespace character: every whitespace character is a plain
space `' '` not preceded by another whitespace character.  Exactly the
strings on which the whitespace-collapsing pass is the identity. -/
def wellSpaced (prevSp : Bool) : List Char → Bool
  | [] => true
  | c :: cs =>
    if isSpaceChar c then !prevSp && decide (c = ' ') && wellSpaced true cs
    else wellSpaced false cs

/-- The response body of spec scenario E: provider status `REQUEST_DENIED`. -/
def deniedResponse : ApiResponse :=
  { status := "REQUEST_DENIED"
    error_message := some "The provided API key is invalid."
    routes := [] }

/-- A route whose only leg holds one transit step and one walking step, each
with distinct line data in a second route, to exhibit which routes
`process_api_routes` consumes. -/
def routeWithLine (ln dep arr : String) : Route :=
  { legs := [{ steps := [{ travel_mode := "TRANSIT"
                           transit_details := some { departure_stop := dep
                                                     arrival_stop := arr
                                                     line := { short_name := some ln, name := none } } }] }] }

/-- The route of spec scenario C: one leg holding one transit step on
line "6" from "Union Sq-14 St" to "Grand Central-42 St", and one walking
step. -/
def scenarioCRoute : Route :=
  { legs := [{ steps :=
      [{ travel_mode := "TRANSIT"
         transit_details := some { departure_stop := "Union Sq-14 St"
                                   arrival_stop := "Grand Central-42 St"
                                   line := { short_name := some "6", name := some "6 Train" } } },
       { travel_mode := "WALKING", transit_details := none }] }] }

/-- Two rides whose neighbouring stops share the word "union" after
normalization. -/
def rideA : ParsedRide :=
  { line := "4", boarding_stop := "Brooklyn Bridge", departing_stop := "Union Sq-14 St"
    ride_date := 7, transferred := false }

def rideB : ParsedRide :=
  { line := "L", boarding_stop := "14th St-Union Sq", departing_stop := "Bedford Av"
    ride_date := 7, transferred := false }

/-- Claim C1, counterexample: on a `REQUEST_DENIED` response the source's
`get_transit_rides_from_api` returns the plain empty list — the very value a
successful zero-route response produces — while the specified gateway fails
with a `ProviderError` carrying the provider's status and message.  The
failure is silently swallowed, contradicting the claim. -/
theorem get_transit_rides_denied_returns_normal_value :
    get_transit_rides_from_api deniedResponse = [] ∧
    get_transit_rides_from_api { status := "OK", error_message := none, routes := [] } = [] ∧
    getTransitRidesSpec deniedResponse =
      Except.error { status := "REQUEST_DENIED", message := some "The provided API key is invalid." } :=
  ⟨rfl, rfl, rfl⟩

/-- Claim C1, amended: for every provider response whose status is not "OK"
(including `REQUEST_DENIED`), `get_transit_rides_from_api` returns the empty
list — a normal return value indistinguishable from zero results; no
`ProviderError` exists in the code. -/
theorem get_transit_rides_nonOk_empty (data : ApiResponse) (h : data.status ≠ "OK") :
    get_transit_rides_from_api data = [] := by
  unfold get_transit_rides_from_api
  simp [h]

/-- Witness for `get_transit_rides_nonOk_empty` at status `ZERO_RESULTS`. -/
theorem get_transit_rides_nonOk_empty_witness :
    get_transit_rides_from_api { status := "ZERO_RESULTS", error_message := none, routes := [] } = [] :=
  get_transit_rides_nonOk_empty _ (by decide)

/-- Claim C2, counterexample: for the shortener URL `https://goo.gl/abc123`,
when the expansion HTTP request fails (`net` returns `none`, i.e. the
`requests.get` call raised), `expand_shortened_url` returns the original
unexpanded shortener URL — it silently continues rather than failing with
`UnresolvableUrl`, contradicting the claim. -/
theorem expand_url_failure_counterexample :
    pyContainsStr "https://goo.gl/abc123" "goo.gl" = true ∧
    expand_shortened_url "https://goo.gl/abc123" (fun _ => none) = "https://goo.gl/abc123" :=
  ⟨rfl, rfl⟩

/-- Claim C2, amended: whenever the expansion request fails, the source's
`except` clause returns the original URL unchanged (for non-shortener URLs no
request is made and the URL is also returned unchanged); no `UnresolvableUrl`
failure is ever produced by this function. -/
theorem expand_url_failure_returns_original (url : String) (net : String → Option String)
    (h : net url = none) : expand_shortened_url url net = url := by
  unfold expand_shortened_url
  split
  · rw [h]
  · rfl

/-- Witness for `expand_url_failure_returns_original`. -/
theorem expand_url_failure_returns_original_witness :
    expand_shortened_url "https://goo.gl/abc123" (fun _ => none) = "https://goo.gl/abc123" :=
  expand_url_failure_returns_original _ _ rfl

/-- Claim C4, counterexample: given two routes, the legacy extractor
`process_api_routes` (cited by the claim) emits a segment from the second
route as well — steps of alternate routes do contribute segments there,
contradicting "the emitted ride segments come only from the first route". -/
theorem process_api_routes_uses_all_routes :
    process_api_routes [routeWithLine "A" "X" "Y", routeWithLine "B" "P" "Q"] 0 =
      [{ line := "A", boarding_stop := "X", departing_stop := "Y", ride_date := 0, transferred := false },
       { line := "B", boarding_stop := "P", departing_stop := "Q", ride_date := 0, transferred := false }] := by
  rfl

/-- Claim C4, amended: the primary extraction path
(`get_transit_rides_from_api`) uses only the first route — its result on a
non-empty route list is unchanged when all alternate routes are dropped — but
the legacy `process_api_routes` walks every route in the list. -/
theorem get_transit_rides_first_route_only (st : String) (em : Option String)
    (r : Route) (rest : List Route) :
    get_transit_rides_from_api { status := st, error_message := em, routes := r :: rest } =
      get_transit_rides_from_api { status := st, error_message := em, routes := [r] } := by
  unfold get_transit_rides_from_api
  split <;> rfl

/-- Claim C9, counterexample: the URL of spec scenario A resolves to
`("Times+Square", "Union+Square")`, not `("Times Square", "Union Square")`:
`urllib.parse.unquote` decodes percent-escapes but leaves `+` intact, so the
claim's "in particular" sentence fails on the code. -/
theorem extract_dir_plus_not_decoded :
    extract_origin_destination "https://www.google.com/maps/dir/Times+Square/Union+Square/" =
      some ("Times+Square", "Union+Square") ∧
    (("Times+Square", "Union+Square") : String × String) ≠ ("Times Square", "Union Square") :=
  ⟨rfl, by decide⟩

/-- Claim C9, amended: for every URL whose path, split on `/`, has a first
`"dir"` part followed by two further parts, the resolver returns those two
parts percent-decoded (`%XX` escapes decoded, `+` left verbatim) as origin
and destination; scenario A therefore yields
`("Times+Square", "Union+Square")`. -/
theorem extract_origin_destination_dir (url : String) (i : Nat) (o d : String)
    (hi : ((pySplitOn '/' (urlPath url.data)).map String.mk).findIdx? (fun p => p = "dir") = some i)
    (ho : ((pySplitOn '/' (urlPath url.data)).map String.mk)[i + 1]? = some o)
    (hd : ((pySplitOn '/' (urlPath url.data)).map String.mk)[i + 2]? = some d) :
    extract_origin_destination url = some (unquote o, unquote d) := by
  simp only [extract_origin_destination, hi, ho, hd]

/-- Witness for `extract_origin_destination_dir` at the scenario-A URL. -/
theorem extract_origin_destination_dir_witness :
    extract_origin_destination "https://www.google.com/maps/dir/Times%20Sq/Union%20Sq/" =
      some ("Times Sq", "Union Sq") :=
  extract_origin_destination_dir _ 2 "Times%20Sq" "Union%20Sq" rfl rfl rfl

/-- Claim C3, counterexample: a step whose `travel_mode` is `"TRANSIT"` but
which carries no `transit_details` object yields no segment — the source
keys extraction on the presence of `transit_details`, not on the travel mode,
so "each step whose travel mode is transit yields exactly one RideSegment"
fails; moreover the code's ride records carry no confidence field at all, so
no segment carries confidence 95. -/
theorem transit_step_without_details_yields_nothing :
    get_transit_rides_from_api
      { status := "OK", error_message := none
        routes := [{ legs := [{ steps := [{ travel_mode := "TRANSIT", transit_details := none }] }] }] } = [] ∧
    ({ travel_mode := "TRANSIT", transit_details := none } : Step).travel_mode = "TRANSIT" :=
  ⟨rfl, rfl⟩

/-- Auxiliary: the extraction loop keeps exactly the steps that carry
`transit_details`. -/
theorem length_filterMap_details (f : TransitDetails → Ride) (l : List Step) :
    (l.filterMap (fun step => step.transit_details.map f)).length =
      l.countP (fun s => s.transit_details.isSome) := by
  induction l with
  | nil => rfl
  | cons s t ih =>
    cases h : s.transit_details <;>
      simp [List.filterMap_cons, h, ih, List.countP_cons]

/-- Auxiliary: segment count over all legs of a route. -/
theorem routeRides_length (legs : List Leg) :
    (legs.flatMap (fun leg => leg.steps.filterMap
        (fun step => step.transit_details.map rideOfDetails))).length =
      (legs.flatMap Leg.steps).countP (fun s => s.transit_details.isSome) := by
  induction legs with
  | nil => rfl
  | cons leg t ih =>
    simp [List.flatMap_cons, List.countP_append, ih, length_filterMap_details]

/-- Claim C3, amended: for every route, the extractor emits exactly one ride
per step that carries transit details (and nothing for the others, e.g.
walking steps), every emitted `ParsedRide` has `transferred = false`, and on
the scenario-C route the result is exactly the single line-"6" segment.  The
code's ride records carry no confidence field, so the spec's "confidence 95"
has no counterpart. -/
theorem route_extractor_segments (route : Route) (d : Nat) :
    (ridesToParsed (routeRides route) d).length =
      (route.legs.flatMap Leg.steps).countP (fun s => s.transit_details.isSome) ∧
    (∀ p ∈ ridesToParsed (routeRides route) d, p.transferred = false) ∧
    ridesToParsed (routeRides scenarioCRoute) d =
      [{ line := "6", boarding_stop := "Union Sq-14 St"
         departing_stop := "Grand Central-42 St", ride_date := d, transferred := false }] := by
  refine ⟨?_, ?_, rfl⟩
  · simp only [ridesToParsed, List.length_map, routeRides]
    exact routeRides_length route.legs
  · intro p hp
    simp only [ridesToParsed, List.mem_map] at hp
    obtain ⟨r, _, rfl⟩ := hp
    rfl

/-- Witness for `route_extractor_segments` at the scenario-C route. -/
theorem route_extractor_segments_witness :
    (ridesToParsed (routeRides scenarioCRoute) 0).length = 1 ∧
    ({ line := "6", boarding_stop := "Union Sq-14 St"
       departing_stop := "Grand Central-42 St", ride_date := 0, transferred := false } : ParsedRide).transferred = false := by
  refine ⟨?_, ?_⟩
  · rw [(route_extractor_segments scenarioCRoute 0).1]
    rfl
  · exact (route_extractor_segments scenarioCRoute 0).2.1 _
      (by rw [(route_extractor_segments scenarioCRoute 0).2.2]; exact List.mem_singleton_self _)

/-- Unfolding equation of `detect_transfers_in_rides` on two or more rides. -/
theorem detect_transfers_cons_cons (r1 r2 : ParsedRide) (rest : List ParsedRide) :
    detect_transfers_in_rides (r1 :: r2 :: rest) =
      (if similar_station_names r1.departing_stop r2.boarding_stop then
        { r1 with transferred := true }
      else r1) :: detect_transfers_in_rides (r2 :: rest) := rfl

/-- The transfer pass keeps the list length. -/
theorem detect_transfers_length (rides : List ParsedRide) :
    (detect_transfers_in_rides rides).length = rides.length := by
  induction rides with
  | nil => rfl
  | cons r1 tail ih =>
    cases tail with
    | nil => rfl
    | cons r2 rest => simp [detect_transfers_cons_cons, ih]

/-- `similar_station_names` spelt out: non-empty raw names, and cleaned forms
equal or sharing a word. -/
theorem similar_station_names_eq (n1 n2 : String) :
    similar_station_names n1 n2 =
      (!decide (n1 = "") && !decide (n2 = "") &&
       (decide (clean_station_name n1 = clean_station_name n2) ||
        (wordsOf (clean_station_name n1)).any
          (fun w => (wordsOf (clean_station_name n2)).contains w))) := by
  by_cases h1 : n1 = "" <;> by_cases h2 : n2 = "" <;>
    by_cases h3 : clean_station_name n1 = clean_station_name n2 <;>
      simp [similar_station_names, h1, h2, h3]

/-- Each ride with a successor is mapped through the marking conditional. -/
theorem detect_transfers_pair_get (rides : List ParsedRide) :
    ∀ i a b, rides[i]? = some a → rides[i + 1]? = some b →
      (detect_transfers_in_rides rides)[i]? =
        some (if similar_station_names a.departing_stop b.boarding_stop then
                { a with transferred := true }
              else a) := by
  induction rides with
  | nil => intro i a b ha _; simp at ha
  | cons r1 tail ih =>
    cases tail with
    | nil =>
      intro i a b _ hb
      rcases i with _ | j <;> simp at hb
    | cons r2 rest =>
      intro i a b ha hb
      rcases i with _ | j
      · rw [List.getElem?_cons_zero] at ha
        rw [List.getElem?_cons_succ, List.getElem?_cons_zero] at hb
        obtain rfl : r1 = a := Option.some.inj ha
        obtain rfl : r2 = b := Option.some.inj hb
        rw [detect_transfers_cons_cons, List.getElem?_cons_zero]
      · rw [List.getElem?_cons_succ] at ha hb
        rw [detect_transfers_cons_cons, List.getElem?_cons_succ]
        exact ih j a b ha hb

/-- The last ride is returned unchanged by the transfer pass. -/
theorem detect_transfers_last_get (rides : List ParsedRide) :
    ∀ a, rides[rides.length - 1]? = some a →
      (detect_transfers_in_rides rides)[rides.length - 1]? = some a := by
  induction rides with
  | nil => intro a ha; simp at ha
  | cons r1 tail ih =>
    cases tail with
    | nil => intro a ha; exact ha
    | cons r2 rest =>
      intro a ha
      simp only [List.length_cons, Nat.add_sub_cancel] at ha ⊢
      rw [detect_transfers_cons_cons]
      have hlen : (r2 :: rest).length - 1 = rest.length := by simp
      have ha' : (r2 :: rest)[(r2 :: rest).length - 1]? = some a := by
        rw [hlen]; simpa using ha
      have := ih a ha'
      rw [hlen] at this
      simpa using this

/-- Claim C5, counterexample: for the adjacent pair below, the spec's
"similar" judgement holds — the normalized forms of the first ride's
departing stop and the second ride's boarding stop are equal (both empty) —
yet `detect_transfers_in_rides` leaves `transferred = false` on the first
ride, because `similar_station_names` first rejects any empty raw name.  So
"sets transferred to true exactly when the normalized forms are equal or
share a word" fails as stated. -/
theorem detect_transfers_empty_names_not_marked :
    similarSpec "" "" = true ∧
    clean_station_name "" = clean_station_name "" ∧
    detect_transfers_in_rides
        [{ line := "A", boarding_stop := "x", departing_stop := "", ride_date := 0, transferred := false },
         { line := "B", boarding_stop := "", departing_stop := "y", ride_date := 0, transferred := false }] =
      [{ line := "A", boarding_stop := "x", departing_stop := "", ride_date := 0, transferred := false },
       { line := "B", boarding_stop := "", departing_stop := "y", ride_date := 0, transferred := false }] :=
  ⟨rfl, rfl, rfl⟩

/-- Claim C5, amended: for every adjacent pair (ride i, ride i+1), the pass
sets ride i's `transferred` to true exactly when both raw stop names are
non-empty AND their cleaned forms are equal or share at least one word
(otherwise the flag keeps its input value); the last ride is returned
unchanged, and every length-1 sequence is returned unchanged. -/
theorem detect_transfers_adjacent_marking (rides : List ParsedRide) :
    (rides.length = 1 → detect_transfers_in_rides rides = rides) ∧
    (∀ i a b, rides[i]? = some a → rides[i + 1]? = some b →
      ((detect_transfers_in_rides rides)[i]?).map ParsedRide.transferred =
        some (a.transferred ||
          (!decide (a.departing_stop = "") && !decide (b.boarding_stop = "") &&
           (decide (clean_station_name a.departing_stop = clean_station_name b.boarding_stop) ||
            (wordsOf (clean_station_name a.departing_stop)).any
              (fun w => (wordsOf (clean_station_name b.boarding_stop)).contains w))))) ∧
    (∀ a, rides[rides.length - 1]? = some a →
      (detect_transfers_in_rides rides)[rides.length - 1]? = some a) := by
  refine ⟨?_, ?_, detect_transfers_last_get rides⟩
  · intro h
    match rides, h with
    | [r], _ => rfl
  · intro i a b ha hb
    rw [detect_transfers_pair_get rides i a b ha hb]
    rw [← similar_station_names_eq]
    cases h : similar_station_names a.departing_stop b.boarding_stop <;> simp [h]

/-- Witness for `detect_transfers_adjacent_marking`: a singleton list is
unchanged, the pair (rideA, rideB) is marked according to the stated
condition, and the last ride is untouched. -/
theorem detect_transfers_adjacent_marking_witness :
    detect_transfers_in_rides [rideA] = [rideA] ∧
    ((detect_transfers_in_rides [rideA, rideB])[0]?).map ParsedRide.transferred =
      some (rideA.transferred ||
        (!decide (rideA.departing_stop = "") && !decide (rideB.boarding_stop = "") &&
         (decide (clean_station_name rideA.departing_stop = clean_station_name rideB.boarding_stop) ||
          (wordsOf (clean_station_name rideA.departing_stop)).any
            (fun w => (wordsOf (clean_station_name rideB.boarding_stop)).contains w)))) ∧
    (detect_transfers_in_rides [rideA, rideB])[1]? = some rideB :=
  ⟨(detect_transfers_adjacent_marking [rideA]).1 rfl,
   (detect_transfers_adjacent_marking [rideA, rideB]).2.1 0 rideA rideB rfl rfl,
   (detect_transfers_adjacent_marking [rideA, rideB]).2.2 rideB rfl⟩

/-- Frame conditions of the transfer pass at each index. -/
theorem detect_transfers_get_frame (rides : List ParsedRide) :
    ∀ (i : Nat) (a b : ParsedRide),
      rides[i]? = some a → (detect_transfers_in_rides rides)[i]? = some b →
      b.line = a.line ∧ b.boarding_stop = a.boarding_stop ∧
      b.departing_stop = a.departing_stop ∧ b.ride_date = a.ride_date ∧
      (a.transferred = true → b.transferred = true) := by
  induction rides with
  | nil => intro i a b ha _; simp at ha
  | cons r1 tail ih =>
    cases tail with
    | nil =>
      intro i a b ha hb
      have hd : detect_transfers_in_rides [r1] = [r1] := rfl
      rw [hd] at hb
      rcases i with _ | j
      · rw [List.getElem?_cons_zero] at ha hb
        obtain rfl : r1 = a := Option.some.inj ha
        obtain rfl : r1 = b := Option.some.inj hb
        exact ⟨rfl, rfl, rfl, rfl, fun h => h⟩
      · rw [List.getElem?_cons_succ] at ha
        simp at ha
    | cons r2 rest =>
      intro i a b ha hb
      rw [detect_transfers_cons_cons] at hb
      rcases i with _ | j
      · rw [List.getElem?_cons_zero] at ha hb
        obtain rfl : r1 = a := Option.some.inj ha
        have hb' := (Option.some.inj hb).symm
        by_cases h : similar_station_names r1.departing_stop r2.boarding_stop
        · rw [if_pos h] at hb'
          rw [hb']
          exact ⟨rfl, rfl, rfl, rfl, fun _ => rfl⟩
        · rw [if_neg h] at hb'
          rw [hb']
          exact ⟨rfl, rfl, rfl, rfl, fun h => h⟩
      · rw [List.getElem?_cons_succ] at ha hb
        exact ih j a b ha hb

/-- Claim C10: the transfer pass preserves the list's length and order and
every field except `transferred` (clearing `transferred` on both sides yields
identical lists), and it never resets an already-true `transferred` flag. -/
theorem detect_transfers_frame_effect (rides : List ParsedRide) :
    (detect_transfers_in_rides rides).length = rides.length ∧
    (detect_transfers_in_rides rides).map stripTransferred = rides.map stripTransferred ∧
    (∀ (i : Nat) (a b : ParsedRide),
      rides[i]? = some a → (detect_transfers_in_rides rides)[i]? = some b →
      b.line = a.line ∧ b.boarding_stop = a.boarding_stop ∧
      b.departing_stop = a.departing_stop ∧ b.ride_date = a.ride_date ∧
      (a.transferred = true → b.transferred = true)) := by
  refine ⟨detect_transfers_length rides, ?_, detect_transfers_get_frame rides⟩
  induction rides with
  | nil => rfl
  | cons r1 tail ih =>
    cases tail with
    | nil => rfl
    | cons r2 rest =>
      rw [detect_transfers_cons_cons, List.map_cons, List.map_cons, ih]
      congr 1
      by_cases h : similar_station_names r1.departing_stop r2.boarding_stop
      · rw [if_pos h]; rfl
      · rw [if_neg h]

/-- Witness for `detect_transfers_frame_effect` at the pair (rideA, rideB):
index 0 is rewritten to rideA with `transferred := true`, all other fields
kept. -/
theorem detect_transfers_frame_effect_witness :
    (detect_transfers_in_rides [rideA, rideB]).length = 2 ∧
    (({ rideA with transferred := true } : ParsedRide).line = rideA.line ∧
     ({ rideA with transferred := true } : ParsedRide).boarding_stop = rideA.boarding_stop ∧
     ({ rideA with transferred := true } : ParsedRide).departing_stop = rideA.departing_stop ∧
     ({ rideA with transferred := true } : ParsedRide).ride_date = rideA.ride_date ∧
     (rideA.transferred = true → ({ rideA with transferred := true } : ParsedRide).transferred = true)) :=
  ⟨(detect_transfers_frame_effect [rideA, rideB]).1,
   (detect_transfers_frame_effect [rideA, rideB]).2.2 0 rideA { rideA with transferred := true }
     rfl rfl⟩

/-- `insertDesc` never disturbs descending order: the head of the result is
the inserted element or the old head. -/
theorem insertDesc_head_cases (x : String × Nat) (l : List (String × Nat)) :
    (insertDesc x l).head? = some x ∨ (insertDesc x l).head? = l.head? := by
  cases l with
  | nil => left; rfl
  | cons y ys =>
    rw [insertDesc]
    split
    · left; rfl
    · right; rfl

/-- Inserting into a descending chain keeps it descending. -/
theorem chain'_insertDesc (x : String × Nat) (l : List (String × Nat))
    (h : List.Chain' (fun a b => b.2 ≤ a.2) l) :
    List.Chain' (fun a b => b.2 ≤ a.2) (insertDesc x l) := by
  induction l with
  | nil => simp [insertDesc]
  | cons y ys ih =>
    rw [insertDesc]
    split
    · exact List.chain'_cons'.mpr ⟨fun b hb => by
        rw [List.head?_cons, Option.mem_some_iff] at hb
        subst hb
        omega, h⟩
    · rename_i hxy
      refine List.chain'_cons'.mpr ⟨?_, ih h.tail⟩
      intro b hb
      rcases insertDesc_head_cases x ys with hc | hc
      · rw [hc, Option.mem_some_iff] at hb
        subst hb
        omega
      · rw [hc] at hb
        exact (List.chain'_cons'.mp h).1 b hb

/-- The stable descending sort is descending. -/
theorem chain'_sortDesc (l : List (String × Nat)) :
    List.Chain' (fun a b => b.2 ≤ a.2) (sortDesc l) := by
  induction l with
  | nil => exact List.chain'_nil
  | cons x xs ih => exact chain'_insertDesc x (sortDesc xs) ih

/-- Taking an initial segment of a descending chain keeps it descending. -/
theorem chain'_take (l : List (String × Nat)) (n : Nat)
    (h : List.Chain' (fun a b => b.2 ≤ a.2) l) :
    List.Chain' (fun a b => b.2 ≤ a.2) (l.take n) := by
  induction l generalizing n with
  | nil => simp
  | cons c cs ih =>
    cases n with
    | zero => simp
    | succ m =>
      rw [List.take_succ_cons]
      have hh : ∀ x, (cs.take m).head? = some x → cs.head? = some x := by
        cases m <;> cases cs <;> simp
      refine List.chain'_cons'.mpr ⟨?_, ih m h.tail⟩
      intro y hy
      rw [Option.mem_def] at hy
      exact (List.chain'_cons'.mp h).1 y (Option.mem_def.mpr (hh y hy))

/-- Claim C6, counterexample: the blank raw name `" "` is not empty as a
Python string, so the guard does not fire; it normalizes to `""`, which is a
substring of every cleaned candidate, so the matcher returns a non-empty
result (substring tier, confidence 80) instead of the empty sequence the
claim requires for blank names. -/
theorem find_matching_blank_counterexample :
    isBlank " " = true ∧
    find_matching_stations " " ["Canal St"] = [("Canal St", 80)] :=
  ⟨rfl, rfl⟩

/-- Claim C6, amended: the matcher always returns at most 3 candidates in
descending confidence order, and returns the empty sequence when the raw name
is the empty string (a blank, whitespace-only raw name is NOT rejected: it
normalizes to the empty string, which is a substring of every candidate, and
so produces confidence-80 matches). -/
theorem find_matching_stations_shape (raw : String) (stations : List String) :
    (find_matching_stations raw stations).length ≤ 3 ∧
    List.Chain' (fun a b => b.2 ≤ a.2) (find_matching_stations raw stations) ∧
    (raw = "" → find_matching_stations raw stations = []) := by
  unfold find_matching_stations
  split
  · exact ⟨by simp, List.chain'_nil, fun _ => rfl⟩
  · rename_i hraw
    dsimp only
    refine ⟨List.length_take_le 3 _, ?_, fun h => absurd h hraw⟩
    exact chain'_take _ 3 (chain'_sortDesc _)

/-- Witness for `find_matching_stations_shape` at the empty raw name. -/
theorem find_matching_stations_shape_witness :
    (find_matching_stations "" ["Canal St"]).length ≤ 3 ∧
    List.Chain' (fun a b => b.2 ≤ a.2) (find_matching_stations "" ["Canal St"]) ∧
    find_matching_stations "" ["Canal St"] = [] :=
  ⟨(find_matching_stations_shape "" ["Canal St"]).1,
   (find_matching_stations_shape "" ["Canal St"]).2.1,
   (find_matching_stations_shape "" ["Canal St"]).2.2 rfl⟩

/-- Claim C7, counterexample: the raw name `"st"` normalizes to `""`, whose
word set is empty and so overlaps with no candidate's word set; yet the
matcher returns `Canal St` at confidence 80, because the empty normalized
form is a substring of every candidate (substring tier fires before the
word-overlap tier). -/
theorem find_matching_no_overlap_counterexample :
    (distinctWordsOf (clean_station_name "st")).filter
        (fun w => (distinctWordsOf (clean_station_name "Canal St")).contains w) = [] ∧
    find_matching_stations "st" ["Canal St"] = [("Canal St", 80)] :=
  ⟨rfl, rfl⟩

/-- A candidate matching none of the three tiers contributes nothing. -/
theorem stationMatch_none (ce : String) (st : String)
    (h1 : ce ≠ clean_station_name st)
    (h2 : pyContainsStr (clean_station_name st) ce = false)
    (h3 : pyContainsStr ce (clean_station_name st) = false)
    (h4 : ∀ w ∈ distinctWordsOf ce, w ∉ distinctWordsOf (clean_station_name st)) :
    stationMatch ce st = none := by
  have hfil : (distinctWordsOf ce).filter
      (fun w => (distinctWordsOf (clean_station_name st)).contains w) = [] := by
    refine List.filter_eq_nil_iff.mpr ?_
    intro w hw
    simpa using h4 w hw
  unfold stationMatch
  rw [if_neg h1, h2, h3]
  simp only [Bool.or_self, Bool.false_eq_true, if_false]
  rw [hfil]
  simp

/-- Claim C7, amended: the matcher returns the empty sequence for every raw
name such that, for each candidate, the two normalized forms are distinct,
neither is a substring of the other, and their word sets are disjoint.
(Word-set disjointness alone is not enough: an empty or substring-related
normalized form still matches at the substring tier.) -/
theorem find_matching_stations_no_tier_matches (raw : String) (stations : List String)
    (h : ∀ st ∈ stations,
      clean_station_name raw ≠ clean_station_name st ∧
      pyContainsStr (clean_station_name st) (clean_station_name raw) = false ∧
      pyContainsStr (clean_station_name raw) (clean_station_name st) = false ∧
      (∀ w ∈ distinctWordsOf (clean_station_name raw),
        w ∉ distinctWordsOf (clean_station_name st))) :
    find_matching_stations raw stations = [] := by
  unfold find_matching_stations
  split
  · rfl
  · dsimp only
    have hnil : stations.filterMap (stationMatch (clean_station_name raw)) = [] := by
      refine List.filterMap_eq_nil_iff.mpr ?_
      intro st hst
      obtain ⟨h1, h2, h3, h4⟩ := h st hst
      exact stationMatch_none _ _ h1 h2 h3 h4
    rw [hnil]
    rfl

/-- Witness for `find_matching_stations_no_tier_matches`. -/
theorem find_matching_stations_no_tier_matches_witness :
    find_matching_stations "xyz" ["Canal St"] = [] :=
  find_matching_stations_no_tier_matches "xyz" ["Canal St"] (by decide)

/-- A successful literal match leaves a suffix-after-drop of the input. -/
theorem tryLits_subset (lits : List (List Char)) (s rest : List Char)
    (h : tryLits lits s = some rest) : rest ⊆ s := by
  induction lits with
  | nil => exact absurd h (by simp [tryLits])
  | cons l ls ih =>
    rw [tryLits] at h
    split at h
    · cases h
      exact List.drop_subset _ _
    · exact ih h

/-- Every character the word-literal pass emits comes from its input. -/
theorem wordSubGo_subset (lits : List (List Char)) :
    ∀ fuel prevW s, wordSubGo lits fuel prevW s ⊆ s := by
  intro fuel
  induction fuel with
  | zero => intro _ s; exact fun _ h => h
  | succ n ih =>
    intro prevW s
    match s with
    | [] => exact fun _ h => h
    | c :: cs =>
      rw [wordSubGo]
      split
      · exact List.cons_subset_cons c (ih _ cs)
      · split
        · rename_i rest heq
          exact fun x hx => tryLits_subset lits (c :: cs) rest heq (ih true rest hx)
        · exact List.cons_subset_cons c (ih _ cs)

/-- Every character the address pass emits comes from its input. -/
theorem addrSubGo_subset : ∀ fuel s, addrSubGo fuel s ⊆ s := by
  intro fuel
  induction fuel with
  | zero => intro s; exact fun _ h => h
  | succ n ih =>
    intro s
    match s with
    | [] => exact fun _ h => h
    | c :: cs =>
      rw [addrSubGo]
      split
      · rename_i k _
        exact fun x hx => List.drop_subset _ _ (ih _ hx)
      · exact List.cons_subset_cons c (ih cs)

/-- Each character the punctuation pass emits is an input character that is a
word or whitespace character, or a plain space. -/
theorem mem_punctSub (s : List Char) (c : Char) (h : c ∈ punctSub s) :
    (c ∈ s ∧ (isWordChar c = true ∨ isSpaceChar c = true)) ∨ c = ' ' := by
  rw [punctSub, List.mem_map] at h
  obtain ⟨c0, hc0, hf⟩ := h
  by_cases hw : isWordChar c0 = true
  · left
    rw [if_neg (by simp [hw])] at hf
    exact ⟨hf ▸ hc0, hf ▸ Or.inl hw⟩
  · by_cases hs : isSpaceChar c0 = true
    · left
      rw [if_neg (by simp [hs])] at hf
      exact ⟨hf ▸ hc0, hf ▸ Or.inr hs⟩
    · right
      rw [if_pos (by simp [hw, hs])] at hf
      exact hf.symm

/-- Each character the whitespace-collapsing pass emits is a non-whitespace
input character or a plain space. -/
theorem mem_spaceSubGo : ∀ (b : Bool) (s : List Char) (c : Char), c ∈ spaceSubGo b s →
    (c ∈ s ∧ isSpaceChar c = false) ∨ c = ' ' := by
  intro b s
  induction s generalizing b with
  | nil => intro c hc; exact absurd hc (by simp [spaceSubGo])
  | cons d ds ih =>
    intro c hc
    rw [spaceSubGo] at hc
    split at hc
    · split at hc
      · rcases ih true c hc with ⟨h1, h2⟩ | h
        · exact Or.inl ⟨List.mem_cons_of_mem d h1, h2⟩
        · exact Or.inr h
      · rcases List.mem_cons.mp hc with h | h
        · exact Or.inr h
        · rcases ih true c h with ⟨h1, h2⟩ | h'
          · exact Or.inl ⟨List.mem_cons_of_mem d h1, h2⟩
          · exact Or.inr h'
    · rcases List.mem_cons.mp hc with h | h
      · subst h
        rename_i hd
        exact Or.inl ⟨List.mem_cons_self _ _, by simpa using hd⟩
      · rcases ih false c h with ⟨h1, h2⟩ | h'
        · exact Or.inl ⟨List.mem_cons_of_mem d h1, h2⟩
        · exact Or.inr h'

/-- Stripping only removes characters. -/
theorem pyStrip_subset (s : List Char) : pyStrip s ⊆ s := by
  intro c hc
  rw [pyStrip] at hc
  rw [List.mem_reverse] at hc
  have h1 := List.dropWhile_subset (l := (s.dropWhile isSpaceChar).reverse) isSpaceChar hc
  rw [List.mem_reverse] at h1
  exact List.dropWhile_subset isSpaceChar h1

/-- Mapping a function that fixes every element is the identity. -/
theorem map_self_of_fixed {f : Char → Char} : ∀ (l : List Char), (∀ c ∈ l, f c = c) →
    l.map f = l := by
  intro l h
  induction l with
  | nil => rfl
  | cons c cs ih =>
    rw [List.map_cons, h c (List.mem_cons_self c cs),
      ih (fun d hd => h d (List.mem_cons_of_mem c hd))]

/-- On a string without any word-literal occurrence the pass is the identity,
whatever the fuel. -/
theorem wordSubGo_noOcc (lits : List (List Char)) :
    ∀ fuel prevW s, hasWordOcc lits prevW s = false → wordSubGo lits fuel prevW s = s := by
  intro fuel
  induction fuel with
  | zero => intro _ s _; rfl
  | succ n ih =>
    intro prevW s h
    match s with
    | [] => rfl
    | c :: cs =>
      rw [hasWordOcc, Bool.or_eq_false_iff] at h
      obtain ⟨h1, h2⟩ := h
      rw [wordSubGo]
      split
      · rw [ih _ cs h2]
      · rename_i hpw
        have hw : prevW = false := by
          cases prevW
          · rfl
          · exact absurd rfl hpw
        subst hw
        rw [Bool.not_false, Bool.true_and] at h1
        split
        · rename_i rest heq
          rw [heq] at h1
          simp at h1
        · rw [ih _ cs h2]

/-- The address pattern needs a leading digit. -/
theorem addrMatchLen_none (c : Char) (cs : List Char) (h : c.isDigit = false) :
    addrMatchLen (c :: cs) = none := by
  rw [addrMatchLen, countLeading]
  simp [h]

/-- On a digit-free string the address pass is the identity. -/
theorem addrSubGo_noDigits : ∀ fuel s, (∀ c ∈ s, c.isDigit = false) →
    addrSubGo fuel s = s := by
  intro fuel
  induction fuel with
  | zero => intro s _; rfl
  | succ n ih =>
    intro s h
    match s with
    | [] => rfl
    | c :: cs =>
      rw [addrSubGo, addrMatchLen_none c cs (h c (List.mem_cons_self c cs))]
      rw [ih cs (fun d hd => h d (List.mem_cons_of_mem c hd))]

/-- On a string of word characters and plain spaces the punctuation pass is
the identity. -/
theorem punctSub_self (s : List Char) (h : ∀ c ∈ s, isWordChar c = true ∨ c = ' ') :
    punctSub s = s := by
  rw [punctSub]
  apply map_self_of_fixed
  intro c hc
  rcases h c hc with hw | hs
  · simp [hw]
  · subst hs
    simp [isSpaceChar]

/-- On a well-spaced string the whitespace-collapsing pass is the identity. -/
theorem spaceSubGo_self : ∀ (s : List Char) (b : Bool), wellSpaced b s = true →
    spaceSubGo b s = s := by
  intro s
  induction s with
  | nil => intro b _; rfl
  | cons c cs ih =>
    intro b h
    rw [wellSpaced] at h
    rw [spaceSubGo]
    split
    · rename_i hsp
      rw [if_pos hsp] at h
      simp only [Bool.and_eq_true, Bool.not_eq_true', decide_eq_true_eq] at h
      obtain ⟨⟨hb, hc⟩, hrest⟩ := h
      subst hb
      rw [if_neg (by simp), hc, ih true hrest]
    · rename_i hsp
      rw [if_neg hsp] at h
      rw [ih false h]

/-- The whitespace-collapsing pass always produces a well-spaced string. -/
theorem wellSpaced_spaceSubGo : ∀ (s : List Char) (b : Bool),
    wellSpaced b (spaceSubGo b s) = true := by
  intro s
  induction s with
  | nil => intro b; rfl
  | cons c cs ih =>
    intro b
    rw [spaceSubGo]
    split
    · rename_i hsp
      cases b
      · rw [if_neg (by simp)]
        rw [wellSpaced, if_pos (show isSpaceChar ' ' = true from rfl)]
        simpa using ih true
      · rw [if_pos rfl]
        exact ih true
    · rename_i hsp
      rw [wellSpaced, if_neg hsp]
      exact ih false

/-- Well-spacedness is closed under prefixes. -/
theorem wellSpaced_of_pre : ∀ (p s : List Char) (b : Bool), p <+: s →
    wellSpaced b s = true → wellSpaced b p = true := by
  intro p
  induction p with
  | nil => intro s b _ _; rfl
  | cons c cp ih =>
    intro s b hp hs
    obtain ⟨t, ht⟩ := hp
    subst ht
    rw [List.cons_append] at hs
    rw [wellSpaced] at hs ⊢
    split at hs
    · rename_i hsp
      rw [if_pos hsp]
      simp only [Bool.and_eq_true] at hs ⊢
      exact ⟨hs.1, ih _ true ⟨t, rfl⟩ hs.2⟩
    · rename_i hsp
      rw [if_neg hsp]
      exact ih _ false ⟨t, rfl⟩ hs

/-- Dropping leading whitespace from a well-spaced string keeps it
well-spaced (for the start-of-string flag). -/
theorem wellSpaced_dropWhile (s : List Char) (h : wellSpaced false s = true) :
    wellSpaced false (s.dropWhile isSpaceChar) = true := by
  match s with
  | [] => rfl
  | c :: cs =>
    by_cases hsp : isSpaceChar c = true
    · rw [List.dropWhile_cons_of_pos hsp]
      rw [wellSpaced, if_pos hsp] at h
      simp only [Bool.not_false, Bool.true_and, Bool.and_eq_true, decide_eq_true_eq] at h
      obtain ⟨hc, hrest⟩ := h
      match cs with
      | [] => rfl
      | d :: ds =>
        by_cases hd : isSpaceChar d = true
        · rw [wellSpaced, if_pos hd] at hrest
          simp at hrest
        · rw [List.dropWhile_cons_of_neg (by simp [hd])]
          rw [wellSpaced, if_neg hd] at hrest ⊢
          exact hrest
    · rw [List.dropWhile_cons_of_neg (by simp [hsp])]
      exact h

/-- Dropping while a predicate holds is idempotent. -/
theorem dropWhile_dropWhile (p : Char → Bool) (l : List Char) :
    (l.dropWhile p).dropWhile p = l.dropWhile p := by
  induction l with
  | nil => rfl
  | cons c cs ih =>
    by_cases h : p c = true
    · rw [List.dropWhile_cons_of_pos h, ih]
    · rw [List.dropWhile_cons_of_neg (by simp [h]),
        List.dropWhile_cons_of_neg (by simp [h])]

/-- Right-stripping yields a prefix of the original list. -/
theorem rstrip_pre (p : Char → Bool) (x : List Char) :
    (x.reverse.dropWhile p).reverse <+: x := by
  have h := (List.dropWhile_suffix (l := x.reverse) p).reverse
  rwa [List.reverse_reverse] at h

/-- Stripping twice is stripping once. -/
theorem pyStrip_idem (u : List Char) : pyStrip (pyStrip u) = pyStrip u := by
  rw [pyStrip, pyStrip]
  have hb : ((u.dropWhile isSpaceChar).reverse.dropWhile isSpaceChar).reverse.dropWhile
      isSpaceChar = ((u.dropWhile isSpaceChar).reverse.dropWhile isSpaceChar).reverse := by
    match hm : ((u.dropWhile isSpaceChar).reverse.dropWhile isSpaceChar).reverse with
    | [] => rfl
    | c :: rest =>
      have hpre : c :: rest <+: u.dropWhile isSpaceChar := hm ▸ rstrip_pre _ _
      obtain ⟨t, ht⟩ := hpre
      have hc : isSpaceChar c = false := by
        have hh := List.head?_dropWhile_not isSpaceChar u
        rw [← ht] at hh
        simpa using hh
      rw [List.dropWhile_cons_of_neg (by simp [hc])]
  rw [hb, List.reverse_reverse, dropWhile_dropWhile]

/-- Collapsing whitespace and stripping is idempotent as a combined pass. -/
theorem stripCollapse_idem (w : List Char) :
    pyStrip (spaceSub (pyStrip (spaceSub w))) = pyStrip (spaceSub w) := by
  have hws : wellSpaced false (spaceSub w) = true := wellSpaced_spaceSubGo w false
  have hdw : wellSpaced false ((spaceSub w).dropWhile isSpaceChar) = true :=
    wellSpaced_dropWhile _ hws
  have hpre : pyStrip (spaceSub w) <+: (spaceSub w).dropWhile isSpaceChar := by
    rw [pyStrip]
    exact rstrip_pre _ _
  have hv : wellSpaced false (pyStrip (spaceSub w)) = true :=
    wellSpaced_of_pre _ _ false hpre hdw
  have h1 : spaceSub (pyStrip (spaceSub w)) = pyStrip (spaceSub w) :=
    spaceSubGo_self _ false hv
  rw [h1, pyStrip_idem]

/-- `Char.ofNat` on a valid codepoint round-trips through `toNat`. -/
theorem char_toNat_ofNat_valid (n : Nat) (h : n.isValidChar) : (Char.ofNat n).toNat = n := by
  unfold Char.ofNat
  rw [dif_pos h]
  rfl

/-- ASCII lowercasing is idempotent. -/
theorem lowerChar_idem (c : Char) : lowerChar (lowerChar c) = lowerChar c := by
  unfold lowerChar Char.toLower
  by_cases h : c.toNat ≥ 65 ∧ c.toNat ≤ 90
  · rw [if_pos h]
    have hv : (Char.ofNat (c.toNat + 32)).toNat = c.toNat + 32 :=
      char_toNat_ofNat_valid _ (Or.inl (by omega))
    rw [if_neg]
    rw [hv]
    omega
  · rw [if_neg h, if_neg h]

/-- Characters of a cleaned name: each is a lowered input character or a
space, and each is a word character or a space. -/
theorem mem_clean_chars (s : String) (c : Char) (h : c ∈ (clean_station_name s).data) :
    (c ∈ s.data.map lowerChar ∨ c = ' ') ∧ (isWordChar c = true ∨ c = ' ') := by
  have hdata : (clean_station_name s).data =
      pyStrip (spaceSub (punctSub (addrSub (wordSub lits3 (wordSub lits2
        (wordSub lits1 (s.data.map lowerChar))))))) := rfl
  rw [hdata] at h
  have h1 := pyStrip_subset _ h
  rcases mem_spaceSubGo false _ c h1 with ⟨h2, _⟩ | hsp
  · rcases mem_punctSub _ c h2 with ⟨h3, h4⟩ | hsp
    · have h5 := addrSubGo_subset _ _ h3
      have h6 := wordSubGo_subset lits3 _ _ _ h5
      have h7 := wordSubGo_subset lits2 _ _ _ h6
      have h8 := wordSubGo_subset lits1 _ _ _ h7
      refine ⟨Or.inl h8, ?_⟩
      rcases h4 with hw | hs
      · exact Or.inl hw
      · rcases mem_spaceSubGo false _ c h1 with ⟨_, hns⟩ | hsp'
        · rw [hs] at hns
          cases hns
        · exact Or.inr hsp'
    · exact ⟨Or.inr hsp, Or.inr hsp⟩
  · exact ⟨Or.inr hsp, Or.inr hsp⟩

/-- Every character of a cleaned name is fixed by lowercasing. -/
theorem mem_clean_lower (s : String) (c : Char) (h : c ∈ (clean_station_name s).data) :
    lowerChar c = c := by
  rcases (mem_clean_chars s c h).1 with hm | hsp
  · rw [List.mem_map] at hm
    obtain ⟨c0, _, rfl⟩ := hm
    exact lowerChar_idem c0
  · rw [hsp]
    decide

/-- Wrapper: the word-literal pass is the identity without occurrences. -/
theorem wordSub_noOcc (lits : List (List Char)) (s : List Char)
    (h : hasWordOcc lits false s = false) : wordSub lits s = s :=
  wordSubGo_noOcc lits _ false s h

/-- Wrapper: the address pass is the identity on digit-free strings. -/
theorem addrSub_noDigits (s : List Char) (h : ∀ c ∈ s, c.isDigit = false) :
    addrSub s = s :=
  addrSubGo_noDigits _ s h

/-- Claim C8, counterexample: the normalizer is NOT idempotent.  On
`"st1e2"` the address-pattern pass removes `"1e2"`, leaving the bare word
`"st"`, which a second normalization then strips to `""`. -/
theorem clean_station_name_not_idempotent :
    clean_station_name "st1e2" = "st" ∧
    clean_station_name "st" = "" ∧
    clean_station_name (clean_station_name "st1e2") ≠ clean_station_name "st1e2" :=
  ⟨rfl, rfl, by decide⟩

/-- Claim C8, amended: the normalizer is idempotent on every input whose
normalized form contains no digit and no word-boundary-delimited occurrence
of any of the three stripped vocabularies.  (In general idempotence fails:
removals can create new strippable words, e.g. `normalize "st1e2" = "st"` but
`normalize "st" = ""`, and such chains can be arbitrarily long, so no fixed
number of extra passes repairs it.) -/
theorem clean_station_name_conditional_idem (s : String)
    (h1 : noDigits (clean_station_name s) = true)
    (h2 : hasWordOcc lits1 false (clean_station_name s).data = false)
    (h3 : hasWordOcc lits2 false (clean_station_name s).data = false)
    (h4 : hasWordOcc lits3 false (clean_station_name s).data = false) :
    clean_station_name (clean_station_name s) = clean_station_name s := by
  have hmk : ∀ x : String, String.mk x.data = x := fun x => by cases x; rfl
  have hlower : (clean_station_name s).data.map lowerChar = (clean_station_name s).data :=
    map_self_of_fixed _ (fun c hc => mem_clean_lower s c hc)
  have hdig : ∀ c ∈ (clean_station_name s).data, c.isDigit = false := by
    intro c hc
    have := (List.all_eq_true.mp h1) c hc
    simpa using this
  have hpunct : punctSub (clean_station_name s).data = (clean_station_name s).data :=
    punctSub_self _ (fun c hc => (mem_clean_chars s c hc).2)
  have hdata : (clean_station_name s).data =
      pyStrip (spaceSub (punctSub (addrSub (wordSub lits3 (wordSub lits2
        (wordSub lits1 (s.data.map lowerChar))))))) := rfl
  show String.mk (pyStrip (spaceSub (punctSub (addrSub (wordSub lits3 (wordSub lits2
      (wordSub lits1 ((clean_station_name s).data.map lowerChar)))))))) =
    clean_station_name s
  rw [hlower, wordSub_noOcc lits1 _ h2, wordSub_noOcc lits2 _ h3, wordSub_noOcc lits3 _ h4,
    addrSub_noDigits _ hdig, hpunct, hdata, stripCollapse_idem, ← hdata, hmk]

/-- Witness for `clean_station_name_conditional_idem`: the cleaned form of
"Times Square Station" is "times", which is digit-free and contains no
strippable word. -/
theorem clean_station_name_conditional_idem_witness :
    clean_station_name (clean_station_name "Times Square Station") =
      clean_station_name "Times Square Station" :=
  clean_station_name_conditional_idem "Times Square Station"
    (by decide) (by decide) (by decide) (by decide)
